import Mathlib

/-!
A shallow embedding of `scripts/geojson-diff.py` (class `DatasetInMemory`,
class `GeojsonCompare`, and its renderers), used to check the repository's
specification against the code.

Modelling conventions:
* Python floats are modelled as rationals (`ℚ`).
* JSON property dictionaries are modelled as association lists whose values
  are kept in their textual form (`String`); dictionary truthiness
  (`if item[k]`) becomes a non-emptiness test on the list.
* JSON coordinate values (numbers and arbitrarily nested arrays) are modelled
  by the inductive `CoordVal`; arrays are encoded as `cons`-chains so that
  decidable equality can be derived.
* The two external geometry libraries used by the script are modelled as
  parameters: `haversine` (package `haversine`) becomes a parameter
  `hav : (ℚ × ℚ) → (ℚ × ℚ) → ℚ`, and shapely's polygon centroid becomes a
  parameter `centroid : CoordVal → ℚ × ℚ`.
* A Python runtime exception (TypeError / KeyError / IndexError) is modelled
  by an `Option`-returning function producing `none`.
* Python's `sorted` is a stable sort; it is embedded as `List.insertionSort`,
  which is stable for the same comparison key (any two stable sorts agree
  extensionally).
-/

namespace GeojsonDiff

/-- JSON property containers: association lists of key/value pairs, values in
textual form. -/
abbrev Props := List (String × String)

/-- A JSON coordinate value: a number or a nested array.  Arrays are encoded
as `cons`-chains (`nil` / `cons`) inside the same inductive. -/
inductive CoordVal where
  | num (q : ℚ)
  | nil
  | cons (head tail : CoordVal)
deriving DecidableEq

/-- Build the `cons`-chain encoding of an array of coordinate values. -/
def CoordVal.ofList : List CoordVal → CoordVal
  | [] => .nil
  | x :: xs => .cons x (CoordVal.ofList xs)

/-- Python subscripting `v[i]` on a coordinate value: `some` for an array of
sufficient length, `none` (a runtime TypeError / IndexError) otherwise. -/
def CoordVal.at? : CoordVal → Nat → Option CoordVal
  | .cons h _, 0 => some h
  | .cons _ t, n + 1 => t.at? n
  | _, _ => none

/-- A geometry object as stored by the script (`item["geometry"]` with its
`type` and `coordinates` members). -/
structure Geometry where
  gtype : String
  coordinates : CoordVal
deriving DecidableEq

/-- `item["geometry"]` as found in the raw input: the `coordinates` member
may be absent. -/
structure RawGeometry where
  gtype : String
  coordinates : Option CoordVal
deriving DecidableEq

/-- One raw input feature, keeping exactly the members `add_item` reads:
whether the top-level `type` key is present, the optional `geometry` object,
and the optional `tags` / `properties` dictionaries.  A feature that is
falsy or lacks `geometry` is modelled with `geometry = none` (both paths
yield the same invalid record in `add_item`). -/
structure RawFeature where
  hasType : Bool
  geometry : Option RawGeometry
  tags : Option Props
  properties : Option Props
deriving DecidableEq

/-- One slot of `DatasetInMemory.items`:
`bad` is the Python literal `False` (malformed feature), `skip` is the Python
`None` (unsupported geometry type), and `rcd coords props orig` is the tuple
`(coords, props, geometry?)` for a usable record, with `coords` ordered
(latitude, longitude). -/
inductive Item where
  | bad
  | skip
  | rcd (coords : ℚ × ℚ) (props : Option Props) (orig : Option Geometry)
deriving DecidableEq

/-- Python truthiness of an items slot: `False` and `None` are falsy, a
(non-empty) tuple is truthy. -/
def Item.truthy : Item → Bool
  | .bad => false
  | .skip => false
  | .rcd _ _ _ => true

/-- The `properties`-only attribute extraction used by the Polygon branch of
`add_item`: `"properties" in item and item["properties"] and
len(item["properties"].keys())`. -/
def polygonProps (f : RawFeature) : Option Props :=
  match f.properties with
  | some p => if p ≠ [] then some p else none
  | none => none

/-- The attribute extraction used by the Point branch of `add_item`:
`_properties = "tags" if "tags" in item else "properties"` followed by the
presence / truthiness / non-emptiness test on `item[_properties]`. -/
def pointProps (f : RawFeature) : Option Props :=
  let container := if f.tags.isSome then f.tags else f.properties
  match container with
  | some p => if p ≠ [] then some p else none
  | none => none

/-- `DatasetInMemory.add_item`: normalize one raw feature into an items slot.
`none` models a runtime exception (subscripting a malformed coordinates
value).  `centroid` models shapely's `Polygon(...).centroid` as
(latitude, longitude) = (`centroid.y`, `centroid.x`). -/
def addItem (centroid : CoordVal → ℚ × ℚ) (f : RawFeature) : Option Item :=
  match f.geometry with
  | none => some .bad
  | some g =>
    match g.coordinates with
    | none => some .bad
    | some cv =>
      if f.hasType = false then some .bad
      else if g.gtype ≠ "Point" then
        if g.gtype = "Polygon" then
          match cv.at? 0 with
          | none => none
          | some ring =>
            some (.rcd (centroid ring) (polygonProps f) (some ⟨g.gtype, cv⟩))
        else some .skip
      else
        match cv.at? 1, cv.at? 0 with
        | some (.num lat), some (.num lon) =>
          some (.rcd (lat, lon) (pointProps f) none)
        | _, _ => none

/-- The top level of one input JSON document, keeping the two keys
`_load_geojson` looks at. -/
structure JDoc where
  elements : Option (List RawFeature)
  features : Option (List RawFeature)

/-- The loader's loop body: feed every raw feature to `add_item` in array
order, propagating a runtime exception as `none`. -/
def addAll (centroid : CoordVal → ℚ × ℚ) : List RawFeature → Option (List Item)
  | [] => some []
  | f :: fs =>
    match addItem centroid f, addAll centroid fs with
    | some it, some its => some (it :: its)
    | _, _ => none

/-- `GeojsonCompare._load_geojson`: read the feature array from `elements`
when that key is present, else from `features`; a document with neither key
raises (KeyError), modelled as `none`. -/
def load_geojson (centroid : CoordVal → ℚ × ℚ) (doc : JDoc) : Option (List Item) :=
  match (if doc.elements.isSome then doc.elements else doc.features) with
  | none => none
  | some feats => addAll centroid feats

/-- `MATCH_EXACT` constant of the script. -/
def MATCH_EXACT : Nat := 1

/-- `MATCH_NEAR` constant of the script. -/
def MATCH_NEAR : Nat := 3

/-- One non-`None` entry of `GeojsonCompare.matrix`: the tuple
`(index_b, kind, distance, skiped)`. -/
structure MatchEntry where
  bIndex : Nat
  kind : Nat
  dist : ℚ
  skiped : Option (List String)
deriving DecidableEq

/-- The comparison key used by `sorted(candidates, key=lambda tup: tup[0])`:
compare candidate pairs `(distance, index_b)` by distance. -/
def candLe (x y : ℚ × Nat) : Prop := x.1 ≤ y.1

instance : DecidableRel candLe := fun x y => inferInstanceAs (Decidable (x.1 ≤ y.1))

/-- The inner loop of `GeojsonCompare.compute` over B (starting at B index
`j`), for a truthy A record `(ca, pa, ga)`: returns the list of EXACT
entries appended to the matrix during the scan (in scan order) together with
the accumulated NEAR candidate list `(dist, index_b)` (in scan order).
The first branch is the full-tuple equality test, the second the
coordinate-only equality test, the third the haversine tolerance test. -/
def scanB (hav : (ℚ × ℚ) → (ℚ × ℚ) → ℚ) (tol : ℚ) (ca : ℚ × ℚ)
    (pa : Option Props) (ga : Option Geometry) :
    Nat → List Item → List MatchEntry × List (ℚ × Nat)
  | _, [] => ([], [])
  | j, b :: rest =>
    let r := scanB hav tol ca pa ga (j + 1) rest
    match b with
    | .rcd cb pb gb =>
      if ca = cb ∧ pa = pb ∧ ga = gb then
        (⟨j, MATCH_EXACT, 0, none⟩ :: r.1, r.2)
      else if ca = cb then
        (⟨j, MATCH_EXACT, 0, none⟩ :: r.1, r.2)
      else
        if hav ca cb ≤ tol then (r.1, (hav ca cb, j) :: r.2) else r
    | _ => r

/-- The matrix entries appended by one iteration of the outer loop of
`GeojsonCompare.compute` (one A index).  The EXACT entries are appended
during the scan of B; then, when the candidate list is non-empty, one NEAR
entry built from the stable sort of the candidates is appended; when nothing
was found a `None` is appended.  Note the code appends one matrix entry per
EXACT hit, and appends the NEAR entry in addition to any EXACT entries. -/
def computeRow (hav : (ℚ × ℚ) → (ℚ × ℚ) → ℚ) (tol : ℚ) (bItems : List Item) :
    Item → List (Option MatchEntry)
  | .rcd ca pa ga =>
    let es := (scanB hav tol ca pa ga 0 bItems).1
    let cs := (scanB hav tol ca pa ga 0 bItems).2
    if cs ≠ [] then
      let best := (List.insertionSort candLe cs).headD (0, 0)
      let skiped : Option (List String) :=
        if 1 < cs.length then some (cs.map (fun c => "B" ++ toString c.2))
        else none
      es.map some ++ [some ⟨best.2, MATCH_NEAR, best.1, skiped⟩]
    else if es = [] then [none]
    else es.map some
  | _ => [none]

/-- `GeojsonCompare.compute`: the full matrix is the concatenation of the
entries appended for each A index, in A order. -/
def compute (hav : (ℚ × ℚ) → (ℚ × ℚ) → ℚ) (tol : ℚ)
    (aItems bItems : List Item) : List (Option MatchEntry) :=
  (aItems.map (computeRow hav tol bItems)).flatten

/-- The state built by `GeojsonCompare.__init__`. -/
structure CompareResult where
  a : List Item
  b : List Item
  matrix : List (Option MatchEntry)
deriving DecidableEq

/-- `GeojsonCompare.__init__`: load A, load B, run `compute`.  A loader
exception aborts the whole comparison (`none`): no partial result exists. -/
def geojsonCompare (centroid : CoordVal → ℚ × ℚ)
    (hav : (ℚ × ℚ) → (ℚ × ℚ) → ℚ) (tol : ℚ) (docA docB : JDoc) :
    Option CompareResult :=
  match load_geojson centroid docA, load_geojson centroid docB with
  | some a, some b => some ⟨a, b, compute hav tol a b⟩
  | _, _ => none

/-- A rendered property value: a string, or a number (the distance
annotations). -/
inductive PVal where
  | str (s : String)
  | q (v : ℚ)
deriving DecidableEq

/-- One output feature of the diff document. -/
structure OutFeature where
  geometry : Geometry
  properties : List (String × PVal)
deriving DecidableEq

/-- `round(x, 2)` of the script, on rationals: round to two decimal places.
(Python rounds binary floats half-to-even; no claim depends on the
half-way direction, and `round` here is Mathlib's integer rounding.) -/
def round2 (x : ℚ) : ℚ := (round (x * 100) : ℤ) / 100

/-- The (lat, lon) tuple of a record rendered as a GeoJSON-style
coordinates value, latitude first — exactly `_item_a[0]` serialized. -/
def pairVal (c : ℚ × ℚ) : CoordVal := .cons (.num c.1) (.cons (.num c.2) .nil)

/-- The body of the per-A-record loop of `GeojsonCompare.diff_geojson_full`:
build one output feature from the A record and its matrix entry.  `none`
models a runtime TypeError/IndexError: subscripting an invalid placeholder
(`_item_a[2]`), a matched B index out of range, or subscripting an invalid
B placeholder. -/
def diffFeature (bItems : List Item) (aIt : Item) (m : Option MatchEntry) :
    Option OutFeature :=
  match aIt with
  | .rcd ca pa ga =>
    let finalGeometry : Geometry :=
      match ga with
      | some g => g
      | none => ⟨"Point", pairVal ca⟩
    let aprops : List (String × PVal) :=
      match pa with
      | some p => p.map (fun kv => ("a." ++ kv.1, PVal.str kv.2))
      | none => []
    match m with
    | none => some ⟨finalGeometry, aprops ++ [("a->b.distance", PVal.q (-1))]⟩
    | some e =>
      match bItems.get? e.bIndex with
      | none => none
      | some (Item.rcd _ pb _) =>
        let bprops : List (String × PVal) :=
          match pb with
          | some p => if p ≠ [] then p.map (fun kv => ("b." ++ kv.1, PVal.str kv.2)) else []
          | none => []
        let nearProp : List (String × PVal) :=
          match e.skiped with
          | some ls => if ls ≠ [] then [("a->b.near", PVal.str (String.intercalate " " ls))] else []
          | none => []
        some ⟨finalGeometry,
          aprops ++ bprops ++ [("a->b.distance", PVal.q (round2 e.dist))] ++ nearProp⟩
      | some _ => none
  | _ => none

/-- The loop of `diff_geojson_full`: one output feature per A index, reading
`self.matrix[index_a]` positionally; a matrix shorter than A raises
(IndexError), and a raising feature aborts the rendering. -/
def diffFeatures (bItems : List Item) :
    List Item → List (Option MatchEntry) → Option (List OutFeature)
  | [], _ => some []
  | _ :: _, [] => none
  | aIt :: arest, m :: mrest =>
    match diffFeature bItems aIt m, diffFeatures bItems arest mrest with
    | some f, some fs => some (f :: fs)
    | _, _ => none

/-- `GeojsonCompare.diff_geojson_full`: the features array of the rendered
FeatureCollection, or `none` when the rendering raises. -/
def diff_geojson_full (aItems bItems : List Item)
    (matrix : List (Option MatchEntry)) : Option (List OutFeature) :=
  diffFeatures bItems aItems matrix

/-- Python `str.strip()`: remove leading and trailing whitespace.  (Defined
by structural recursion on the character list, because `String.trim` itself
is not kernel-reducible.) -/
def strip (s : String) : String :=
  ⟨((s.data.dropWhile Char.isWhitespace).reverse.dropWhile Char.isWhitespace).reverse⟩

/-- `GeojsonCompare._short_title`. -/
def short_title (properties : Option Props) : String :=
  match properties with
  | none => ""
  | some ps =>
    if ps = [] then ""
    else
      let r1 := match ps.lookup "nome" with
        | some v => v
        | none => ""
      let r2 := match ps.lookup "name" with
        | some v => v
        | none => r1
      let r3 := match ps.lookup "ref" with
        | some v => r2 ++ " (" ++ v ++ ")"
        | none => r2
      strip r3

/-- The header row of `GeojsonCompare.summary_tabular`. -/
def tabularHeader : List PVal :=
  [.str "uid_a", .str "uid_b", .str "id_a", .str "id_b", .str "distance_ab",
   .str "latitude_a", .str "longitude_a", .str "latitude_b", .str "longitude_b",
   .str "desc_a", .str "desc_b", .str "near_a"]

/-- The body of the per-A-record loop of `GeojsonCompare.summary_tabular`:
one data row.  `none` models a runtime exception; note the `id_a` column
evaluates `_item_a[1]` unguarded, so an invalid placeholder (Python `False`
or `None`) raises a TypeError before the guarded columns are reached, and
a matched B entry subscripts `self.b.items[_matrix[0]][1]` (IndexError when
out of range, TypeError on an invalid B placeholder). -/
def tabularRow (bItems : List Item) (ia : Nat) (aIt : Item)
    (m : Option MatchEntry) : Option (List PVal) :=
  match aIt with
  | .rcd ca pa _ =>
    let uidA : PVal := .str ("A" ++ toString ia)
    let uidB : PVal := match m with
      | none => .str ""
      | some e => .str ("B" ++ toString e.bIndex)
    let idA : PVal := match pa with
      | none => .str ""
      | some p =>
        if p = [] then .str ""
        else match p.lookup "id" with
          | none => .str ""
          | some v => .str v
    match m with
    | none =>
      some [uidA, uidB, idA, .str "", .q (-1),
            .q ca.2, .q ca.1, .str "", .str "",
            .str (short_title pa), .str "", .str ""]
    | some e =>
      match bItems.get? e.bIndex with
      | none => none
      | some (Item.rcd cb pb _) =>
        let idB : PVal := match pb with
          | none => .str ""
          | some p =>
            if p = [] then .str ""
            else match p.lookup "id" with
              | none => .str ""
              | some v => .str v
        let nearA : PVal := match e.skiped with
          | some ls => if ls ≠ [] then .str (String.intercalate " " ls) else .str ""
          | none => .str ""
        some [uidA, uidB, idA, idB, .q e.dist,
              .q ca.2, .q ca.1, .q cb.2, .q cb.1,
              .str (short_title pa), .str (short_title pb), nearA]
      | some _ => none
  | _ => none

/-- The loop of `summary_tabular`, starting at A index `ia`. -/
def tabularRows (bItems : List Item) :
    Nat → List Item → List (Option MatchEntry) → Option (List (List PVal))
  | _, [], _ => some []
  | _, _ :: _, [] => none
  | ia, aIt :: arest, m :: mrest =>
    match tabularRow bItems ia aIt m, tabularRows bItems (ia + 1) arest mrest with
    | some r, some rs => some (r :: rs)
    | _, _ => none

/-- `GeojsonCompare.summary_tabular`: header row followed by one data row
per A index, or `none` when a row raises. -/
def summary_tabular (aItems bItems : List Item)
    (matrix : List (Option MatchEntry)) : Option (List (List PVal)) :=
  match tabularRows bItems 0 aItems matrix with
  | none => none
  | some rows => some (tabularHeader :: rows)

/-! ### Characterizations of the scan of B -/

/-- The union of the two exact tests of `compute` applied to one enumerated
B slot `(j, b)`: a truthy B record whose coordinates equal the A record's
(the full-tuple test implies coordinate equality, and both branches append
the same entry `(j, MATCH_EXACT, 0, None)`). -/
def exactEntryOf (ca : ℚ × ℚ) : Nat × Item → Option MatchEntry
  | (j, .rcd cb _ _) => if ca = cb then some ⟨j, MATCH_EXACT, 0, none⟩ else none
  | _ => none

/-- The NEAR-candidate test of `compute` applied to one enumerated B slot:
a truthy B record, not exact-equal, within tolerance. -/
def candOf (hav : (ℚ × ℚ) → (ℚ × ℚ) → ℚ) (tol : ℚ) (ca : ℚ × ℚ) :
    Nat × Item → Option (ℚ × Nat)
  | (j, .rcd cb _ _) =>
    if ca ≠ cb ∧ hav ca cb ≤ tol then some (hav ca cb, j) else none
  | _ => none

lemma scanB_fst_eq (hav : (ℚ × ℚ) → (ℚ × ℚ) → ℚ) (tol : ℚ) (ca : ℚ × ℚ)
    (pa : Option Props) (ga : Option Geometry) :
    ∀ (j : Nat) (bs : List Item),
      (scanB hav tol ca pa ga j bs).1 = (bs.enumFrom j).filterMap (exactEntryOf ca)
  | _, [] => by simp [scanB]
  | j, b :: rest => by
    have ih := scanB_fst_eq hav tol ca pa ga (j + 1) rest
    rw [List.enumFrom_cons, List.filterMap_cons]
    cases b with
    | bad => simpa [scanB, exactEntryOf] using ih
    | skip => simpa [scanB, exactEntryOf] using ih
    | rcd cb pb gb =>
      by_cases hfull : ca = cb ∧ pa = pb ∧ ga = gb
      · obtain ⟨h1, h2, h3⟩ := hfull
        subst h1; subst h2; subst h3
        simp [scanB, exactEntryOf, ih]
      · by_cases hco : ca = cb
        · subst hco
          simp [scanB, hfull, exactEntryOf, ih]
        · by_cases hd : hav ca cb ≤ tol
          · simp [scanB, hfull, hco, hd, exactEntryOf, ih]
          · simp [scanB, hfull, hco, hd, exactEntryOf, ih]

lemma scanB_snd_eq (hav : (ℚ × ℚ) → (ℚ × ℚ) → ℚ) (tol : ℚ) (ca : ℚ × ℚ)
    (pa : Option Props) (ga : Option Geometry) :
    ∀ (j : Nat) (bs : List Item),
      (scanB hav tol ca pa ga j bs).2 = (bs.enumFrom j).filterMap (candOf hav tol ca)
  | _, [] => by simp [scanB]
  | j, b :: rest => by
    have ih := scanB_snd_eq hav tol ca pa ga (j + 1) rest
    rw [List.enumFrom_cons, List.filterMap_cons]
    cases b with
    | bad => simpa [scanB, candOf] using ih
    | skip => simpa [scanB, candOf] using ih
    | rcd cb pb gb =>
      by_cases hfull : ca = cb ∧ pa = pb ∧ ga = gb
      · obtain ⟨h1, h2, h3⟩ := hfull
        subst h1; subst h2; subst h3
        simp [scanB, candOf, ih]
      · by_cases hco : ca = cb
        · subst hco
          simp [scanB, hfull, candOf, ih]
        · by_cases hd : hav ca cb ≤ tol
          · simp [scanB, hfull, hco, hd, candOf, ih]
          · simp [scanB, hfull, hco, hd, candOf, ih]

/-- The head of a `filterMap` comes from the first element the function
accepts. -/
lemma head_filterMap {α β : Type} (f : α → Option β) :
    ∀ (l : List α) (e : β), (l.filterMap f).head? = some e →
      ∃ k x, l.get? k = some x ∧ f x = some e ∧
        ∀ i y, i < k → l.get? i = some y → f y = none
  | [], e, h => by simp at h
  | a :: t, e, h => by
    rw [List.filterMap_cons] at h
    cases hfa : f a with
    | some b =>
      rw [hfa] at h
      simp only [List.head?_cons, Option.some.injEq] at h
      subst h
      exact ⟨0, a, rfl, hfa, fun i y hi _ => absurd hi (Nat.not_lt_zero i)⟩
    | none =>
      rw [hfa] at h
      obtain ⟨k, x, hx, hfx, hmin⟩ := head_filterMap f t e h
      refine ⟨k + 1, x, by simpa using hx, hfx, fun i y hi hy => ?_⟩
      cases i with
      | zero =>
        simp only [List.get?_cons_zero, Option.some.injEq] at hy
        subst hy; exact hfa
      | succ i =>
        exact hmin i y (Nat.lt_of_succ_lt_succ hi) (by simpa using hy)

/-- Elements of the enumerated candidate list have strictly increasing B
indices (they are appended in B scan order). -/
lemma candList_pairwise (hav : (ℚ × ℚ) → (ℚ × ℚ) → ℚ) (tol : ℚ) (ca : ℚ × ℚ) :
    ∀ (bs : List Item) (j : Nat),
      ((bs.enumFrom j).filterMap (candOf hav tol ca)).Pairwise
        (fun x y => x.2 < y.2) ∧
      ∀ x ∈ (bs.enumFrom j).filterMap (candOf hav tol ca), j ≤ x.2
  | [], j => by simp
  | b :: rest, j => by
    obtain ⟨ihp, ihl⟩ := candList_pairwise hav tol ca rest (j + 1)
    rw [List.enumFrom_cons, List.filterMap_cons]
    cases hfb : candOf hav tol ca (j, b) with
    | none =>
      exact ⟨ihp, fun x hx => Nat.le_of_succ_le (ihl x hx)⟩
    | some c =>
      have hcj : c.2 = j := by
        cases b with
        | bad => simp [candOf] at hfb
        | skip => simp [candOf] at hfb
        | rcd cb pb gb =>
          by_cases hcond : ca ≠ cb ∧ hav ca cb ≤ tol
          · simp [candOf, hcond] at hfb
            rw [← hfb]
          · simp [candOf, hcond] at hfb
      constructor
      · refine List.pairwise_cons.mpr ⟨fun x hx => ?_, ihp⟩
        rw [hcj]; exact Nat.lt_of_succ_le (ihl x hx)
      · intro x hx
        rcases List.mem_cons.mp hx with h | h
        · subst h; rw [hcj]
        · exact Nat.le_of_succ_le (ihl x h)

/-! ### The stable sort of the candidate list -/

/-- The first element of a list attaining the minimal distance component.
This is the head of any stable sort by distance, hence the head of the
script's `sorted(candidates, key=lambda tup: tup[0])`. -/
def firstMin : List (ℚ × Nat) → Option (ℚ × Nat)
  | [] => none
  | x :: xs =>
    match firstMin xs with
    | none => some x
    | some m => if x.1 ≤ m.1 then some x else some m

lemma firstMin_eq_none_iff (l : List (ℚ × Nat)) : firstMin l = none ↔ l = [] := by
  cases l with
  | nil => simp [firstMin]
  | cons x xs =>
    simp only [firstMin]
    cases firstMin xs with
    | none => simp
    | some m =>
      by_cases h : x.1 ≤ m.1 <;> simp [h]

lemma head?_orderedInsert (x : ℚ × Nat) (l : List (ℚ × Nat)) :
    (List.orderedInsert candLe x l).head? =
      some (match l.head? with
            | none => x
            | some y => if x.1 ≤ y.1 then x else y) := by
  cases l with
  | nil => simp [List.orderedInsert]
  | cons y t =>
    simp only [List.orderedInsert, List.head?_cons]
    by_cases h : candLe x y
    · simp [h]; exact (if_pos h).symm ▸ rfl
    · simp [h]; exact (if_neg h).symm ▸ rfl

lemma head?_insertionSort :
    ∀ l : List (ℚ × Nat), (List.insertionSort candLe l).head? = firstMin l
  | [] => rfl
  | x :: xs => by
    have ih := head?_insertionSort xs
    show (List.orderedInsert candLe x (List.insertionSort candLe xs)).head? = _
    rw [head?_orderedInsert, ih]
    cases hxs : firstMin xs with
    | none => simp [firstMin, hxs]
    | some y =>
      by_cases hle : x.1 ≤ y.1 <;> simp [firstMin, hxs, hle]

lemma firstMin_mem : ∀ (l : List (ℚ × Nat)) (m : ℚ × Nat),
    firstMin l = some m → m ∈ l
  | [], m, h => by simp [firstMin] at h
  | x :: xs, m, h => by
    cases hxs : firstMin xs with
    | none =>
      simp only [firstMin, hxs, Option.some.injEq] at h
      subst h; exact List.mem_cons_self x xs
    | some m' =>
      simp only [firstMin, hxs] at h
      by_cases hle : x.1 ≤ m'.1
      · rw [if_pos hle, Option.some.injEq] at h
        subst h; exact List.mem_cons_self x xs
      · rw [if_neg hle, Option.some.injEq] at h
        subst h; exact List.mem_cons_of_mem x (firstMin_mem xs m' hxs)

lemma firstMin_min : ∀ (l : List (ℚ × Nat)) (m : ℚ × Nat),
    firstMin l = some m → ∀ c ∈ l, m.1 ≤ c.1
  | [], m, h => by simp [firstMin] at h
  | x :: xs, m, h => by
    cases hxs : firstMin xs with
    | none =>
      have hnil : xs = [] := (firstMin_eq_none_iff xs).mp hxs
      subst hnil
      simp only [firstMin, Option.some.injEq] at h
      subst h
      intro c hc
      rw [List.mem_singleton] at hc
      subst hc; exact le_refl _
    | some m' =>
      simp only [firstMin, hxs] at h
      intro c hc
      rcases List.mem_cons.mp hc with hcx | hcs
      · subst hcx
        by_cases hle : c.1 ≤ m'.1
        · rw [if_pos hle, Option.some.injEq] at h; subst h; exact le_refl _
        · rw [if_neg hle, Option.some.injEq] at h; subst h
          exact le_of_not_le hle
      · have hm' := firstMin_min xs m' hxs c hcs
        by_cases hle : x.1 ≤ m'.1
        · rw [if_pos hle, Option.some.injEq] at h; subst h
          exact le_trans hle hm'
        · rw [if_neg hle, Option.some.injEq] at h; subst h; exact hm'

lemma firstMin_tie : ∀ (l : List (ℚ × Nat)) (m : ℚ × Nat),
    l.Pairwise (fun x y => x.2 < y.2) → firstMin l = some m →
      ∀ c ∈ l, c.1 = m.1 → m.2 ≤ c.2
  | [], m, _, h => by simp [firstMin] at h
  | x :: xs, m, hpw, h => by
    obtain ⟨hx, hpw'⟩ := List.pairwise_cons.mp hpw
    cases hxs : firstMin xs with
    | none =>
      have hnil : xs = [] := (firstMin_eq_none_iff xs).mp hxs
      subst hnil
      simp only [firstMin, Option.some.injEq] at h
      subst h
      intro c hc _
      rw [List.mem_singleton] at hc
      subst hc; exact le_refl _
    | some m' =>
      simp only [firstMin, hxs] at h
      intro c hc hceq
      rcases List.mem_cons.mp hc with hcx | hcs
      · subst hcx
        by_cases hle : c.1 ≤ m'.1
        · rw [if_pos hle, Option.some.injEq] at h; subst h; exact le_refl _
        · rw [if_neg hle, Option.some.injEq] at h; subst h
          exact absurd (le_of_eq hceq) hle
      · by_cases hle : x.1 ≤ m'.1
        · rw [if_pos hle, Option.some.injEq] at h; subst h
          exact Nat.le_of_lt (hx c hcs)
        · rw [if_neg hle, Option.some.injEq] at h; subst h
          exact firstMin_tie xs m' hpw' hxs c hcs hceq

lemma headD_of_head? {α : Type} (l : List α) (d m : α)
    (h : l.head? = some m) : l.headD d = m := by
  cases l with
  | nil => simp at h
  | cons a t =>
    simp only [List.head?_cons, Option.some.injEq] at h
    simp [h]

/-! ### Concrete fixtures for closed evaluations

The external distance and centroid libraries are parameters of the
embedding; the fixtures below instantiate them with simple rational
functions. -/

/-- A distance function for tests: constantly 0. -/
def havZero : (ℚ × ℚ) → (ℚ × ℚ) → ℚ := fun _ _ => 0

/-- A distance function for tests: the longitude of the second argument, so
distinct B records get distinct distances.  (No rational arithmetic, which
keeps it kernel-reducible.) -/
def havLon : (ℚ × ℚ) → (ℚ × ℚ) → ℚ := fun _ b => b.2

/-- A centroid function for tests. -/
def centroidZero : CoordVal → ℚ × ℚ := fun _ => (0, 0)

/-- A point record at (0, 0) with no attributes. -/
def p00 : Item := .rcd (0, 0) none none

/-- A point record at latitude 0, longitude 1, no attributes. -/
def bNear0 : Item := .rcd (0, 1) none none

/-- A point record at latitude 0, longitude 2, no attributes. -/
def bNear1 : Item := .rcd (0, 2) none none

/-! ### Claims -/

/-- Claim C1: the claim states that after `compute()` the match table has
exactly `len(A)` entries, one per A index, even when several B records pass
the EXACT tests.  The code violates this: each EXACT hit appends its own
matrix entry inside the scan of B, so one A record matched exactly by two
identical B records yields a matrix of length 2 (the renderers, which read
`matrix[index_a]`, are silently misaligned from that point on). -/
theorem c1_matrix_length_violation :
    (compute havZero 100 [p00] [p00, p00]).length = 2 ∧
    [p00].length = 1 := by decide

/-- Claim C2 counterexample: the claim states that for an invalid A record
both renderers still emit a placeholder output without raising.  In the
code both renderers subscript the placeholder (`_item_a[2]` in
`diff_geojson_full`, `_item_a[1]` in the `id_a` column of
`summary_tabular`) and raise a TypeError, modelled here as `none`. -/
theorem c2_counterexample :
    diff_geojson_full [Item.bad] [] (compute havZero 100 [Item.bad] []) = none ∧
    summary_tabular [Item.bad] [] (compute havZero 100 [Item.bad] []) = none := by
  decide

/-- Claim C3 counterexample: the claim states that with several EXACT hits
the value retained for A index `i` is the entry of the *last* exact B index
(later writes overwriting earlier ones positionally).  In the code entries
are appended, never overwritten: with B = two records exactly equal to
A[0], the matrix slot read for A index 0 holds the entry for B index 0 (the
*first* exact hit), not B index 1. -/
theorem c3_counterexample :
    (compute havZero 100 [p00] [p00, p00]).get? 0 =
      some (some ⟨0, MATCH_EXACT, 0, none⟩) ∧
    (compute havZero 100 [p00] [p00, p00]).get? 0 ≠
      some (some ⟨1, MATCH_EXACT, 0, none⟩) := by decide

/-- Claim C5 counterexample: the claim states that `alternates` lists every
other qualifying B index, *excluding* the selected best match.  The code
builds `skiped` from `range(0, len(candidates))`, so it includes the
selected best candidate as well: with two NEAR candidates B0 (distance 1,
selected) and B1 (distance 2), the field is `["B0", "B1"]`, not
`["B1"]`. -/
theorem c5_counterexample :
    compute havLon 100 [p00] [bNear0, bNear1] =
      [some ⟨0, MATCH_NEAR, 1, some ["B0", "B1"]⟩] ∧
    (some ["B0", "B1"] : Option (List String)) ≠ some ["B1"] := by decide

/-- Claim C6 counterexample: the claim states that a Point feature with a
present-but-empty `tags` container and a non-empty `properties` container
gets its attributes from `properties`.  In the code the container is chosen
by key *presence* alone (`"tags" if "tags" in item else "properties"`), so
an empty `tags` shadows `properties` and the attributes are absent. -/
def c6feat : RawFeature :=
  ⟨true, some ⟨"Point", some (.cons (.num 1) (.cons (.num 2) .nil))⟩,
   some [], some [("x", "1")]⟩

theorem c6_counterexample :
    addItem centroidZero c6feat = some (.rcd (2, 1) none none) ∧
    addItem centroidZero c6feat ≠
      some (.rcd (2, 1) (some [("x", "1")]) none) := by decide

/-- An A record with internal coordinates (latitude 2, longitude 1) and an
`id` attribute. -/
def a7 : Item := .rcd (2, 1) (some [("id", "a1")]) none

/-- A B record with the same coordinates and its own `id` attribute. -/
def b7 : Item := .rcd (2, 1) (some [("id", "b1")]) none

/-- Claim C7: the claim states the tabular `latitude_a` column holds the
latitude and `longitude_a` the longitude (likewise for `_b`).  The code
reads `_item_a[0][1]` for `latitude_a` and `_item_a[0][0]` for
`longitude_a`, but the internal coordinate tuple is (latitude, longitude),
so the columns are swapped: for internal coordinates (latitude 2,
longitude 1) the `latitude_a` cell below holds 1 (the longitude) and the
`longitude_a` cell holds 2 (the latitude); same for the matched B record. -/
theorem c7_latlon_columns_swapped :
    summary_tabular [a7] [b7] (compute havZero 100 [a7] [b7]) =
      some [tabularHeader,
            [.str "A0", .str "B0", .str "a1", .str "b1", .q 0,
             .q 1, .q 2, .q 1, .q 2, .str "", .str "", .str ""]] := by decide

lemma diffFeatures_of_invalid (bItems : List Item) :
    ∀ (aItems : List Item) (matrix : List (Option MatchEntry)) (i : Nat)
      (it : Item), aItems.get? i = some it → it.truthy = false →
      diffFeatures bItems aItems matrix = none
  | [], _, i, it, hget, _ => by simp at hget
  | _ :: _, [], _, _, _, _ => rfl
  | a :: arest, m :: mrest, 0, it, hget, htr => by
    simp only [List.get?_cons_zero, Option.some.injEq] at hget
    subst hget
    cases a with
    | bad => rfl
    | skip => rfl
    | rcd c p g => simp [Item.truthy] at htr
  | a :: arest, m :: mrest, i + 1, it, hget, htr => by
    have ih := diffFeatures_of_invalid bItems arest mrest i it
      (by simpa using hget) htr
    simp only [diffFeatures, ih]
    cases diffFeature bItems a m <;> rfl

lemma tabularRows_of_invalid (bItems : List Item) :
    ∀ (ia : Nat) (aItems : List Item) (matrix : List (Option MatchEntry))
      (i : Nat) (it : Item), aItems.get? i = some it → it.truthy = false →
      tabularRows bItems ia aItems matrix = none
  | _, [], _, i, it, hget, _ => by simp at hget
  | _, _ :: _, [], _, _, _, _ => rfl
  | ia, a :: arest, m :: mrest, 0, it, hget, htr => by
    simp only [List.get?_cons_zero, Option.some.injEq] at hget
    subst hget
    cases a with
    | bad => rfl
    | skip => rfl
    | rcd c p g => simp [Item.truthy] at htr
  | ia, a :: arest, m :: mrest, i + 1, it, hget, htr => by
    have ih := tabularRows_of_invalid bItems (ia + 1) arest mrest i it
      (by simpa using hget) htr
    simp only [tabularRows, ih]
    cases tabularRow bItems ia a m <;> rfl

/-- Claim C2 (amended): for every invalid A record (a non-record
placeholder) the renderers do NOT survive: both `diff_geojson_full` and
`summary_tabular` raise a TypeError subscripting the placeholder (at
`_item_a[2]` and at `_item_a[1]` in the `id_a` column respectively), so
neither produces any output.  This refutes the claim that a fallback
feature and a placeholder row are emitted without error. -/
theorem c2_invalid_record_renderers_raise (aItems bItems : List Item)
    (matrix : List (Option MatchEntry))
    (h : ∃ i it, aItems.get? i = some it ∧ it.truthy = false) :
    diff_geojson_full aItems bItems matrix = none ∧
    summary_tabular aItems bItems matrix = none := by
  obtain ⟨i, it, hget, htr⟩ := h
  refine ⟨diffFeatures_of_invalid bItems aItems matrix i it hget htr, ?_⟩
  unfold summary_tabular
  rw [tabularRows_of_invalid bItems 0 aItems matrix i it hget htr]

/-- Witness for the amended C2 theorem at a concrete invalid record. -/
theorem c2_invalid_record_renderers_raise_witness :
    diff_geojson_full [Item.bad] [] [none] = none ∧
    summary_tabular [Item.bad] [] [none] = none :=
  c2_invalid_record_renderers_raise [Item.bad] [] [none]
    ⟨0, Item.bad, rfl, rfl⟩

/-- Claim C9: the loader reads the feature array from `elements` when that
key is present, else from `features`; with neither key the load raises
(KeyError) and the whole comparison aborts with no partial result, whether
the failing document is A or B. -/
theorem c9_container_selection (centroid : CoordVal → ℚ × ℚ)
    (hav : (ℚ × ℚ) → (ℚ × ℚ) → ℚ) (tol : ℚ)
    (es fs : List RawFeature) (fOpt : Option (List RawFeature)) (doc : JDoc) :
    load_geojson centroid ⟨some es, fOpt⟩ = addAll centroid es ∧
    load_geojson centroid ⟨none, some fs⟩ = addAll centroid fs ∧
    load_geojson centroid ⟨none, none⟩ = none ∧
    geojsonCompare centroid hav tol ⟨none, none⟩ doc = none ∧
    geojsonCompare centroid hav tol doc ⟨none, none⟩ = none := by
  refine ⟨rfl, rfl, rfl, rfl, ?_⟩
  cases h : load_geojson centroid doc with
  | none => simp [geojsonCompare, h]
  | some a => simp [geojsonCompare, h, load_geojson]

/-- Claim C10: for a Point-typed input feature, whose GeoJSON `coordinates`
array orders longitude first, the normalized record holds (latitude,
longitude) with no original geometry, and the Diff Renderer's fallback
output geometry is a Point whose `coordinates` value is that internal pair
latitude-first — the reverse of the input order. -/
theorem c10_fallback_latitude_first (centroid : CoordVal → ℚ × ℚ)
    (lon lat : ℚ) (f : RawFeature)
    (hg : f.geometry =
      some ⟨"Point", some (.cons (.num lon) (.cons (.num lat) .nil))⟩)
    (ht : f.hasType = true) :
    addItem centroid f = some (.rcd (lat, lon) (pointProps f) none) ∧
    (∀ (bItems : List Item) (m : Option MatchEntry) (out : OutFeature),
      diffFeature bItems (.rcd (lat, lon) (pointProps f) none) m = some out →
      out.geometry = ⟨"Point", .cons (.num lat) (.cons (.num lon) .nil)⟩) := by
  constructor
  · simp [addItem, hg, ht, CoordVal.at?]
  · intro bItems m out hout
    cases m with
    | none =>
      simp only [diffFeature, Option.some.injEq] at hout
      rw [← hout]
      rfl
    | some e =>
      simp only [diffFeature] at hout
      cases hb : bItems.get? e.bIndex with
      | none => rw [hb] at hout; exact absurd hout (by simp)
      | some bIt =>
        rw [hb] at hout
        cases bIt with
        | bad => exact absurd hout (by simp)
        | skip => exact absurd hout (by simp)
        | rcd cb pbb gbb =>
          simp only [Option.some.injEq] at hout
          rw [← hout]
          rfl

/-- Witness for the C10 theorem at a concrete Point feature with GeoJSON
coordinates [1, 2] (longitude 1, latitude 2). -/
theorem c10_fallback_latitude_first_witness :
    addItem centroidZero
        ⟨true, some ⟨"Point", some (.cons (.num 1) (.cons (.num 2) .nil))⟩,
         none, none⟩ =
      some (.rcd (2, 1)
        (pointProps ⟨true,
          some ⟨"Point", some (.cons (.num 1) (.cons (.num 2) .nil))⟩,
          none, none⟩) none) ∧
    (∀ (bItems : List Item) (m : Option MatchEntry) (out : OutFeature),
      diffFeature bItems
          (.rcd (2, 1)
            (pointProps ⟨true,
              some ⟨"Point", some (.cons (.num 1) (.cons (.num 2) .nil))⟩,
              none, none⟩) none) m = some out →
      out.geometry = ⟨"Point", .cons (.num 2) (.cons (.num 1) .nil)⟩) :=
  c10_fallback_latitude_first centroidZero 1 2
    ⟨true, some ⟨"Point", some (.cons (.num 1) (.cons (.num 2) .nil))⟩,
     none, none⟩ rfl rfl

/-- Claim C3 (amended): EXACT hits append entries (no overwriting).  When at
least one B record passes an exact test for a truthy A record, the first
entry appended for that A index — the one a positionally aligned reader
finds in the slot for `i` — is the EXACT entry (kind `MATCH_EXACT`,
distance 0) of the FIRST B index passing an exact test in scan order; any
NEAR entry is appended only after all EXACT entries. -/
theorem c3_exact_appends_first_wins
    (hav : (ℚ × ℚ) → (ℚ × ℚ) → ℚ) (tol : ℚ) (bItems : List Item)
    (ca : ℚ × ℚ) (pa : Option Props) (ga : Option Geometry)
    (hE : (scanB hav tol ca pa ga 0 bItems).1 ≠ []) :
    ∃ e : MatchEntry,
      (computeRow hav tol bItems (.rcd ca pa ga)).head? = some (some e) ∧
      (scanB hav tol ca pa ga 0 bItems).1.head? = some e ∧
      e.kind = MATCH_EXACT ∧ e.dist = 0 ∧
      (∃ b, bItems.get? e.bIndex = some b ∧
        exactEntryOf ca (e.bIndex, b) = some e) ∧
      (∀ j b, bItems.get? j = some b → j < e.bIndex →
        exactEntryOf ca (j, b) = none) := by
  obtain ⟨e0, t0, hes⟩ := List.exists_cons_of_ne_nil hE
  have hhead : (scanB hav tol ca pa ga 0 bItems).1.head? = some e0 := by
    rw [hes]; rfl
  have hfm : ((bItems.enumFrom 0).filterMap (exactEntryOf ca)).head? = some e0 := by
    rw [← scanB_fst_eq hav tol ca pa ga 0 bItems]; exact hhead
  obtain ⟨k, x, hxget, hfx, hmin⟩ := head_filterMap (exactEntryOf ca) _ e0 hfm
  rw [List.get?_enumFrom] at hxget
  cases hbk : bItems.get? k with
  | none => rw [hbk] at hxget; exact absurd hxget (by simp)
  | some bk =>
    rw [hbk] at hxget
    simp only [Option.map_some', Option.some.injEq, Nat.zero_add] at hxget
    have hKindDist : e0.kind = MATCH_EXACT ∧ e0.dist = 0 ∧ e0.bIndex = k := by
      rw [← hxget] at hfx
      cases bk with
      | bad => simp [exactEntryOf] at hfx
      | skip => simp [exactEntryOf] at hfx
      | rcd cb pb gb =>
        by_cases hco : ca = cb
        · simp only [exactEntryOf, if_pos hco, Option.some.injEq] at hfx
          rw [← hfx]
          exact ⟨rfl, rfl, rfl⟩
        · simp [exactEntryOf, hco] at hfx
    refine ⟨e0, ?_, hhead, hKindDist.1, hKindDist.2.1, ?_, ?_⟩
    · -- head of the computeRow
      simp only [computeRow]
      by_cases hcs : (scanB hav tol ca pa ga 0 bItems).2 ≠ []
      · rw [if_pos hcs, hes]
        rfl
      · rw [if_neg hcs, if_neg (by rw [hes]; exact List.cons_ne_nil e0 t0), hes]
        rfl
    · refine ⟨bk, ?_, ?_⟩
      · rw [hKindDist.2.2]; exact hbk
      · rw [hKindDist.2.2, hxget]; exact hfx
    · intro j b hjb hjlt
      rw [hKindDist.2.2] at hjlt
      refine hmin j (j, b) hjlt ?_
      rw [List.get?_enumFrom, hjb]
      simp

/-- Witness for the amended C3 theorem: one A record at (0,0), B = two
records identical to it. -/
theorem c3_exact_appends_first_wins_witness :
    ∃ e : MatchEntry,
      (computeRow havZero 100 [p00, p00] (.rcd (0, 0) none none)).head? =
        some (some e) ∧
      (scanB havZero 100 (0, 0) none none 0 [p00, p00]).1.head? = some e ∧
      e.kind = MATCH_EXACT ∧ e.dist = 0 ∧
      (∃ b, [p00, p00].get? e.bIndex = some b ∧
        exactEntryOf (0, 0) (e.bIndex, b) = some e) ∧
      (∀ j b, [p00, p00].get? j = some b → j < e.bIndex →
        exactEntryOf (0, 0) (j, b) = none) :=
  c3_exact_appends_first_wins havZero 100 [p00, p00] (0, 0) none none
    (by decide)

/-- Claim C4: for a truthy A record with no EXACT hit and a non-empty
candidate list, the single entry appended is a NEAR entry whose B index and
distance come from a candidate of minimal distance, ties broken by the
smallest B index (Python's `sorted` is stable and candidates are appended
in B scan order). -/
theorem c4_near_best_candidate
    (hav : (ℚ × ℚ) → (ℚ × ℚ) → ℚ) (tol : ℚ) (bItems : List Item)
    (ca : ℚ × ℚ) (pa : Option Props) (ga : Option Geometry)
    (hE : (scanB hav tol ca pa ga 0 bItems).1 = [])
    (hC : (scanB hav tol ca pa ga 0 bItems).2 ≠ []) :
    ∃ best sk,
      computeRow hav tol bItems (.rcd ca pa ga) =
        [some ⟨best.2, MATCH_NEAR, best.1, sk⟩] ∧
      best ∈ (scanB hav tol ca pa ga 0 bItems).2 ∧
      (∀ c ∈ (scanB hav tol ca pa ga 0 bItems).2, best.1 ≤ c.1) ∧
      (∀ c ∈ (scanB hav tol ca pa ga 0 bItems).2, c.1 = best.1 →
        best.2 ≤ c.2) := by
  obtain ⟨m, hm⟩ :
      ∃ m, firstMin (scanB hav tol ca pa ga 0 bItems).2 = some m := by
    cases hfm : firstMin (scanB hav tol ca pa ga 0 bItems).2 with
    | none => exact absurd ((firstMin_eq_none_iff _).mp hfm) hC
    | some m => exact ⟨m, rfl⟩
  have hbest :
      (List.insertionSort candLe
        (scanB hav tol ca pa ga 0 bItems).2).headD (0, 0) = m :=
    headD_of_head? _ _ _ ((head?_insertionSort _).trans hm)
  have hpw : (scanB hav tol ca pa ga 0 bItems).2.Pairwise
      (fun x y => x.2 < y.2) := by
    rw [scanB_snd_eq]
    exact (candList_pairwise hav tol ca bItems 0).1
  refine ⟨m,
    if 1 < (scanB hav tol ca pa ga 0 bItems).2.length
    then some ((scanB hav tol ca pa ga 0 bItems).2.map
      (fun c => "B" ++ toString c.2))
    else none,
    ?_, firstMin_mem _ m hm, firstMin_min _ m hm,
    firstMin_tie _ m hpw hm⟩
  simp only [computeRow]
  rw [if_pos hC, hE, hbest]
  rfl

/-- Witness for the C4 theorem: A at (0,0), two B records within tolerance
at distances 1 and 2. -/
theorem c4_near_best_candidate_witness :
    ∃ best sk,
      computeRow havLon 100 [bNear0, bNear1] (.rcd (0, 0) none none) =
        [some ⟨best.2, MATCH_NEAR, best.1, sk⟩] ∧
      best ∈ (scanB havLon 100 (0, 0) none none 0 [bNear0, bNear1]).2 ∧
      (∀ c ∈ (scanB havLon 100 (0, 0) none none 0 [bNear0, bNear1]).2,
        best.1 ≤ c.1) ∧
      (∀ c ∈ (scanB havLon 100 (0, 0) none none 0 [bNear0, bNear1]).2,
        c.1 = best.1 → best.2 ≤ c.2) :=
  c4_near_best_candidate havLon 100 [bNear0, bNear1] (0, 0) none none
    (by decide) (by decide)

/-- Claim C5 (amended): in the NEAR case the single appended entry carries
`skiped` = the labels of EVERY within-tolerance candidate (in B scan order,
including the selected best), and the field is non-None exactly when more
than one candidate qualified. -/
theorem c5_alternates_include_best
    (hav : (ℚ × ℚ) → (ℚ × ℚ) → ℚ) (tol : ℚ) (bItems : List Item)
    (ca : ℚ × ℚ) (pa : Option Props) (ga : Option Geometry)
    (hE : (scanB hav tol ca pa ga 0 bItems).1 = [])
    (hC : (scanB hav tol ca pa ga 0 bItems).2 ≠ []) :
    ∃ e : MatchEntry,
      computeRow hav tol bItems (.rcd ca pa ga) = [some e] ∧
      e.kind = MATCH_NEAR ∧
      e.skiped = (if 1 < (scanB hav tol ca pa ga 0 bItems).2.length
                  then some ((scanB hav tol ca pa ga 0 bItems).2.map
                    (fun c => "B" ++ toString c.2))
                  else none) ∧
      (e.skiped ≠ none ↔ 1 < (scanB hav tol ca pa ga 0 bItems).2.length) := by
  refine ⟨⟨((List.insertionSort candLe
      (scanB hav tol ca pa ga 0 bItems).2).headD (0, 0)).2, MATCH_NEAR,
      ((List.insertionSort candLe
        (scanB hav tol ca pa ga 0 bItems).2).headD (0, 0)).1,
      if 1 < (scanB hav tol ca pa ga 0 bItems).2.length
      then some ((scanB hav tol ca pa ga 0 bItems).2.map
        (fun c => "B" ++ toString c.2))
      else none⟩, ?_, rfl, rfl, ?_⟩
  · simp only [computeRow]
    rw [if_pos hC, hE]
    rfl
  · by_cases hlen : 1 < (scanB hav tol ca pa ga 0 bItems).2.length
    · simp [hlen]
    · simp [hlen]

/-- Witness for the amended C5 theorem at the two-candidate fixture. -/
theorem c5_alternates_include_best_witness :
    ∃ e : MatchEntry,
      computeRow havLon 100 [bNear0, bNear1] (.rcd (0, 0) none none) =
        [some e] ∧
      e.kind = MATCH_NEAR ∧
      e.skiped = (if 1 < (scanB havLon 100 (0, 0) none none 0
                    [bNear0, bNear1]).2.length
                  then some ((scanB havLon 100 (0, 0) none none 0
                    [bNear0, bNear1]).2.map (fun c => "B" ++ toString c.2))
                  else none) ∧
      (e.skiped ≠ none ↔
        1 < (scanB havLon 100 (0, 0) none none 0 [bNear0, bNear1]).2.length) :=
  c5_alternates_include_best havLon 100 [bNear0, bNear1] (0, 0) none none
    (by decide) (by decide)

/-- Claim C6 (amended): for a well-formed Point feature the normalizer
yields the record with (latitude, longitude) coordinates, no original
geometry, and attributes chosen by the PRESENCE of the `tags` key: a
present non-empty `tags` is used; a present empty `tags` leaves attributes
absent even when `properties` is non-empty; only an absent `tags` key lets
a present non-empty `properties` be used. -/
theorem c6_point_attribute_selection (centroid : CoordVal → ℚ × ℚ)
    (f : RawFeature) (cv : CoordVal) (lat lon : ℚ)
    (hg : f.geometry = some ⟨"Point", some cv⟩) (ht : f.hasType = true)
    (h1 : cv.at? 1 = some (.num lat)) (h0 : cv.at? 0 = some (.num lon)) :
    addItem centroid f = some (.rcd (lat, lon) (pointProps f) none) ∧
    (∀ t, f.tags = some t → t ≠ [] → pointProps f = some t) ∧
    (∀ t, f.tags = some t → t = [] → pointProps f = none) ∧
    (∀ p, f.tags = none → f.properties = some p → p ≠ [] →
      pointProps f = some p) ∧
    (∀ p, f.tags = none → f.properties = some p → p = [] →
      pointProps f = none) ∧
    (f.tags = none → f.properties = none → pointProps f = none) := by
  refine ⟨?_, ?_, ?_, ?_, ?_, ?_⟩
  · simp [addItem, hg, ht, h1, h0]
  · intro t htag hne
    simp [pointProps, htag, hne]
  · intro t htag hnil
    subst hnil
    simp [pointProps, htag]
  · intro p htag hprop hne
    simp [pointProps, htag, hprop, hne]
  · intro p htag hprop hnil
    subst hnil
    simp [pointProps, htag, hprop]
  · intro htag hprop
    simp [pointProps, htag, hprop]

/-- Witness for the amended C6 theorem at a Point feature with a non-empty
`tags` container. -/
theorem c6_point_attribute_selection_witness :
    addItem centroidZero
        ⟨true, some ⟨"Point", some (.cons (.num 1) (.cons (.num 2) .nil))⟩,
         some [("k", "v")], none⟩ =
      some (.rcd (2, 1)
        (pointProps ⟨true,
          some ⟨"Point", some (.cons (.num 1) (.cons (.num 2) .nil))⟩,
          some [("k", "v")], none⟩) none) ∧
    (∀ t, (⟨true,
        some ⟨"Point", some (.cons (.num 1) (.cons (.num 2) .nil))⟩,
        some [("k", "v")], none⟩ : RawFeature).tags = some t → t ≠ [] →
      pointProps ⟨true,
        some ⟨"Point", some (.cons (.num 1) (.cons (.num 2) .nil))⟩,
        some [("k", "v")], none⟩ = some t) ∧
    (∀ t, (⟨true,
        some ⟨"Point", some (.cons (.num 1) (.cons (.num 2) .nil))⟩,
        some [("k", "v")], none⟩ : RawFeature).tags = some t → t = [] →
      pointProps ⟨true,
        some ⟨"Point", some (.cons (.num 1) (.cons (.num 2) .nil))⟩,
        some [("k", "v")], none⟩ = none) ∧
    (∀ p, (⟨true,
        some ⟨"Point", some (.cons (.num 1) (.cons (.num 2) .nil))⟩,
        some [("k", "v")], none⟩ : RawFeature).tags = none →
      (⟨true,
        some ⟨"Point", some (.cons (.num 1) (.cons (.num 2) .nil))⟩,
        some [("k", "v")], none⟩ : RawFeature).properties = some p → p ≠ [] →
      pointProps ⟨true,
        some ⟨"Point", some (.cons (.num 1) (.cons (.num 2) .nil))⟩,
        some [("k", "v")], none⟩ = some p) ∧
    (∀ p, (⟨true,
        some ⟨"Point", some (.cons (.num 1) (.cons (.num 2) .nil))⟩,
        some [("k", "v")], none⟩ : RawFeature).tags = none →
      (⟨true,
        some ⟨"Point", some (.cons (.num 1) (.cons (.num 2) .nil))⟩,
        some [("k", "v")], none⟩ : RawFeature).properties = some p → p = [] →
      pointProps ⟨true,
        some ⟨"Point", some (.cons (.num 1) (.cons (.num 2) .nil))⟩,
        some [("k", "v")], none⟩ = none) ∧
    ((⟨true,
        some ⟨"Point", some (.cons (.num 1) (.cons (.num 2) .nil))⟩,
        some [("k", "v")], none⟩ : RawFeature).tags = none →
      (⟨true,
        some ⟨"Point", some (.cons (.num 1) (.cons (.num 2) .nil))⟩,
        some [("k", "v")], none⟩ : RawFeature).properties = none →
      pointProps ⟨true,
        some ⟨"Point", some (.cons (.num 1) (.cons (.num 2) .nil))⟩,
        some [("k", "v")], none⟩ = none) :=
  c6_point_attribute_selection centroidZero
    ⟨true, some ⟨"Point", some (.cons (.num 1) (.cons (.num 2) .nil))⟩,
     some [("k", "v")], none⟩
    (.cons (.num 1) (.cons (.num 2) .nil)) 2 1 rfl rfl rfl rfl

/-- Claim C8: for a truthy A record and a truthy B record at index `j`
whose coordinates are not exactly equal, the pair (distance, j) is in the
NEAR candidate list exactly when the computed distance is ≤ the tolerance:
the boundary case qualifies, anything strictly greater is excluded. -/
theorem c8_tolerance_boundary
    (hav : (ℚ × ℚ) → (ℚ × ℚ) → ℚ) (tol : ℚ) (ca : ℚ × ℚ)
    (pa : Option Props) (ga : Option Geometry) (bItems : List Item)
    (j : Nat) (cb : ℚ × ℚ) (pb : Option Props) (gb : Option Geometry)
    (hj : bItems.get? j = some (.rcd cb pb gb)) (hne : ca ≠ cb) :
    (hav ca cb, j) ∈ (scanB hav tol ca pa ga 0 bItems).2 ↔
      hav ca cb ≤ tol := by
  rw [scanB_snd_eq]
  constructor
  · intro hmem
    obtain ⟨x, hxmem, hfx⟩ := List.mem_filterMap.mp hmem
    obtain ⟨k, hk⟩ := List.mem_iff_get?.mp hxmem
    rw [List.get?_enumFrom] at hk
    cases hbk : bItems.get? k with
    | none => rw [hbk] at hk; exact absurd hk (by simp)
    | some bk =>
      rw [hbk] at hk
      simp only [Option.map_some', Option.some.injEq, Nat.zero_add] at hk
      rw [← hk] at hfx
      cases bk with
      | bad => simp [candOf] at hfx
      | skip => simp [candOf] at hfx
      | rcd cb' pb' gb' =>
        by_cases hcond : ca ≠ cb' ∧ hav ca cb' ≤ tol
        · simp only [candOf, if_pos hcond, Option.some.injEq,
            Prod.mk.injEq] at hfx
          have hkj : k = j := hfx.2
          subst hkj
          rw [hj] at hbk
          have : Item.rcd cb pb gb = Item.rcd cb' pb' gb' :=
            Option.some.inj hbk
          have hcb : cb = cb' := by injection this
          rw [← hcb] at hcond
          exact hcond.2
        · simp [candOf, hcond] at hfx
  · intro hle
    apply List.mem_filterMap.mpr
    refine ⟨(j, .rcd cb pb gb), ?_, ?_⟩
    · have hget := List.get?_enumFrom 0 bItems j
      rw [hj] at hget
      simp only [Option.map_some', Nat.zero_add] at hget
      exact List.get?_mem hget
    · simp [candOf, hne, hle]

/-- Witness for the C8 theorem: B record at longitude 1, distance 1,
tolerance 100. -/
theorem c8_tolerance_boundary_witness :
    (havLon (0, 0) (0, 1), 0) ∈
        (scanB havLon 100 (0, 0) none none 0 [bNear0]).2 ↔
      havLon (0, 0) (0, 1) ≤ 100 :=
  c8_tolerance_boundary havLon 100 (0, 0) none none [bNear0] 0 (0, 1)
    none none rfl (by decide)

end GeojsonDiff
